import Mathlib

/-!
Verification of the response layer of `starlette/responses.py`
(encode/starlette, early revision). Python functions are shallowly
embedded as executable Lean definitions: byte strings become `List Nat`
(each entry a byte value), Python `str` becomes `String`, header
multi-maps become ordered association lists, and the ASGI send protocol
becomes a list of `Event` values. Fallible operations return
`Except`/pairs with an error component.
-/

/-- UTF-8 encoding of one Unicode code point (standard 1-4 byte scheme);
models CPython's `str.encode("utf-8")` at the code-point level. -/
def utf8Char (n : Nat) : List Nat :=
  if n < 0x80 then [n]
  else if n < 0x800 then [0xC0 + n / 0x40, 0x80 + n % 0x40]
  else if n < 0x10000 then
    [0xE0 + n / 0x1000, 0x80 + (n / 0x40) % 0x40, 0x80 + n % 0x40]
  else
    [0xF0 + n / 0x40000, 0x80 + (n / 0x1000) % 0x40,
     0x80 + (n / 0x40) % 0x40, 0x80 + n % 0x40]

/-- UTF-8 encoding of a whole string, as a list of byte values. -/
def utf8Encode (s : String) : List Nat :=
  s.data.flatMap (fun c => utf8Char c.toNat)

/-- Uppercase hexadecimal digit, as used by `urllib.parse.quote`
(`'%%%02X' % byte`). -/
def hexUpper (n : Nat) : Nat :=
  if n < 10 then 48 + n else 55 + n

/-- The characters `urllib.parse.quote` never escapes
(`_ALWAYS_SAFE`: ASCII letters, digits, and `_.-~`). -/
def isAlwaysSafe (b : Nat) : Bool :=
  (65 ≤ b && b ≤ 90) || (97 ≤ b && b ≤ 122) || (48 ≤ b && b ≤ 57) ||
  b == 95 || b == 46 || b == 45 || b == 126

/-- One byte of `urllib.parse.quote` output: kept verbatim when always
safe or in the caller's `safe` set, otherwise percent-escaped with
uppercase hex digits. -/
def quoteByte (safe : List Nat) (b : Nat) : List Nat :=
  if isAlwaysSafe b || safe.contains b then [b]
  else [37, hexUpper (b / 16), hexUpper (b % 16)]

/-- `urllib.parse.quote` on a UTF-8 byte string with a given `safe` set. -/
def pyQuote (safe : List Nat) (bs : List Nat) : List Nat :=
  bs.flatMap (quoteByte safe)

/-- `urllib.parse.quote_plus`: when the input holds a space, quote with
the space added to `safe` and then replace every space with `+` (byte
43); otherwise exactly `quote`. -/
def quote_plus (safe : List Nat) (bs : List Nat) : List Nat :=
  if bs.contains 32 then
    (pyQuote (safe ++ [32]) bs).map (fun b => if b == 32 then 43 else b)
  else
    pyQuote safe bs

/-- The `safe` set `RedirectResponse.__init__` passes to `quote_plus`:
the characters of the string ":/%#?&=@[]!$&'()*+,;" as byte values. -/
def redirectSafe : List Nat :=
  [58, 47, 37, 35, 63, 38, 61, 64, 91, 93, 33, 36, 38, 39, 40, 41, 42, 43, 44, 59]

/-- The value `RedirectResponse.__init__` stores in the `location`
header: `quote_plus(str(url), safe=":/%#?&=@[]!$&'()*+,;")`, as bytes of
the resulting ASCII string. -/
def redirectLocation (url : String) : List Nat :=
  quote_plus redirectSafe (utf8Encode url)

/-- Refinement model following the spec's words for the redirect
Location value: "percent-encoding applied to all characters except an
allow-list", read (as the spec's own example forces) as leaving the
allow-list and the standard unreserved characters intact and
percent-escaping everything else - in particular the space. -/
def specLocationEncode (url : String) : List Nat :=
  (utf8Encode url).flatMap (quoteByte redirectSafe)

/-- Per-byte description of what `quote_plus` actually does with the
redirect safe set: a space becomes `+`, everything else is encoded as by
`quote`. -/
def quotePlusByte (b : Nat) : List Nat :=
  if b == 32 then [43] else quoteByte redirectSafe b

theorem hexUpper_ge (n : Nat) : 48 ≤ hexUpper n := by
  unfold hexUpper; split <;> omega

theorem quoteByte_snoc_space (b : Nat) (h : b ≠ 32) (safe : List Nat) :
    quoteByte (safe ++ [32]) b = quoteByte safe b := by
  unfold quoteByte
  have : (safe ++ [32]).contains b = safe.contains b := by
    simp [List.contains_eq_any_beq, List.any_append, h]
  rw [this]

theorem map_space_quoteByte (b : Nat) (h : b ≠ 32) (safe : List Nat) :
    (quoteByte safe b).map (fun x => if x == 32 then 43 else x) = quoteByte safe b := by
  unfold quoteByte
  split
  · simp [h]
  · have h1 := hexUpper_ge (b / 16)
    have h2 := hexUpper_ge (b % 16)
    have e2 : (hexUpper (b / 16) == 32) = false := beq_eq_false_iff_ne.mpr (by omega)
    have e3 : (hexUpper (b % 16) == 32) = false := beq_eq_false_iff_ne.mpr (by omega)
    simp [e2, e3]
    omega

/-- `quote_plus` with the redirect safe set acts byte-by-byte as
`quotePlusByte`. -/
theorem quote_plus_redirect_eq (bs : List Nat) :
    quote_plus redirectSafe bs = bs.flatMap quotePlusByte := by
  unfold quote_plus
  split
  · unfold pyQuote
    rw [List.map_flatMap]
    apply List.flatMap_congr
    intro b _
    by_cases hb : b = 32
    · subst hb
      have : quoteByte (redirectSafe ++ [32]) 32 = [32] := by decide
      rw [this]
      simp [quotePlusByte]
    · rw [quoteByte_snoc_space b hb, map_space_quoteByte b hb]
      simp [quotePlusByte, hb]
  · unfold pyQuote
    rename_i hns
    apply List.flatMap_congr
    intro b hmem
    have hb : b ≠ 32 := by
      intro he; subst he
      refine hns ?_
      simp only [List.contains_eq_any_beq, List.any_eq_true]
      exact ⟨32, hmem, rfl⟩
    simp [quotePlusByte, hb]

/-! ## Header multi-map

`starlette.datastructures.MutableHeaders` is not part of the sources
under verification, so its operations are modelled from the spec. -/

abbrev Headers := List (String × String)

/-- ASCII lower-casing of one character, as `str.lower` acts on header
names (header names are ASCII). -/
def lowerChar (c : Char) : Char :=
  if 65 <= c.toNat && c.toNat <= 90 then Char.ofNat (c.toNat + 32) else c

/-- ASCII lower-casing of a string (`key.lower()` on header names). -/
def lowerString (s : String) : String :=
  String.mk (s.data.map lowerChar)


/-- Modelled from the spec: the case-insensitive presence test of
`starlette.datastructures.MutableHeaders` (used by
`"Content-Length" not in self.headers`); the spec's HeaderSet invariant
is that header names are compared case-insensitively. -/
def containsCI (hs : Headers) (key : String) : Bool :=
  hs.any (fun p => lowerString p.1 == lowerString key)

/-- Number of entries whose name equals `key` case-insensitively. -/
def countCI (hs : Headers) (key : String) : Nat :=
  (hs.filter (fun p => lowerString p.1 == lowerString key)).length

/-- First value stored under `key`, compared case-insensitively. -/
def getCI (hs : Headers) (key : String) : Option String :=
  (hs.find? (fun p => lowerString p.1 == lowerString key)).map Prod.snd

/-- Modelled from the spec: `MutableHeaders.__setitem__`
(`self.headers["location"] = ...`) sets the value for a name - existing
entries with that name (case-insensitively) are replaced by the single
new entry. -/
def setHeaderCI (hs : Headers) (key value : String) : Headers :=
  hs.filter (fun p => !(lowerString p.1 == lowerString key)) ++ [(key, value)]

/-- Modelled from the spec: `MutableHeaders.setdefault` - "set-if-absent
never overwrites"; appends only when the name is absent. -/
def setdefaultCI (hs : Headers) (key value : String) : Headers :=
  if containsCI hs key then hs else hs ++ [(key, value)]

/-- Modelled from the spec: `MutableHeaders.append` - "append always
adds" a new entry, never replacing existing ones. -/
def appendHeader (hs : Headers) (key value : String) : Headers :=
  hs ++ [(key, value)]

/-! ## Base `Response` -/

/-- The `content` argument of `Response`: Python `None`, `bytes`, or
`str`. -/
inductive Content
  | none
  | bytes (b : List Nat)
  | text (s : String)
deriving DecidableEq

/-- State of a `Response` object after `Response.__init__`: `content`,
`status_code`, the header multi-map, the media type (class attribute
`None` unless overridden), and the charset class attribute `"utf-8"`. -/
structure Response where
  content : Content := .none
  status_code : Nat := 200
  headers : Headers := []
  media_type : Option String := Option.none
  charset : String := "utf-8"

/-- `Response.render`: `None` becomes the empty byte string, `bytes` is
passed through, `str` is encoded with the configured charset (the
charset is the class constant `"utf-8"` for every variant modelled
here, so text encodes as UTF-8). -/
def Response.render (_r : Response) (content : Content) : List Nat :=
  match content with
  | .none => []
  | .bytes b => b
  | .text s => utf8Encode s

/-- The computed `content-length` entry of `Response.build_headers`:
present only when a body was given and no Content-Length is pre-set,
holding the decimal byte length of the body. -/
def clHeaderPart (hs : Headers) (body : Option (List Nat)) : Headers :=
  match body with
  | some b =>
    if containsCI hs "Content-Length" then []
    else [("content-length", toString b.length)]
  | Option.none => []

/-- The computed `content-type` entry of `Response.build_headers`: from
the media type, only when no Content-Type is pre-set, with
`; charset=<charset>` appended exactly when the media type starts with
`text/`. -/
def ctHeaderPart (hs : Headers) (media_type : Option String)
    (charset : String) : Headers :=
  match media_type with
  | some ct =>
    if containsCI hs "Content-Type" then []
    else [("content-type",
           if ct.startsWith "text/" then ct ++ "; charset=" ++ charset else ct)]
  | Option.none => []

/-- `Response.build_headers`: the computed `content-length` and
`content-type` entries (in that order) followed by the caller's raw
headers (`headers + self.headers.raw`). -/
def buildHeaders (hs : Headers) (media_type : Option String)
    (charset : String) (body : Option (List Nat)) : Headers :=
  clHeaderPart hs body ++ ctHeaderPart hs media_type charset ++ hs

/-- `Response.build_headers` applied to a response object's fields. -/
def Response.build_headers (r : Response) (body : Option (List Nat)) : Headers :=
  buildHeaders r.headers r.media_type r.charset body

/-- One ASGI protocol event handed to `send`: either
`http.response.start` or `http.response.body`. A body event sent
without an explicit `more_body` key defaults to `more_body = false`. -/
inductive Event
  | start (status : Nat) (headers : Headers)
  | body (body : List Nat) (more_body : Bool)
deriving DecidableEq

/-- `Response.__call__`: render the stored content, then send exactly a
start event followed by one body event carrying the whole payload. -/
def Response.call (r : Response) : List Event :=
  let body := r.render r.content
  [.start r.status_code (r.build_headers (some body)), .body body false]

/-! ## `RedirectResponse` -/

/-- Decodes an all-ASCII byte list back to the Python `str` it came
from (the output of `quote_plus` is always ASCII here). -/
def asciiString (bs : List Nat) : String :=
  String.mk (bs.map Char.ofNat)

/-- `RedirectResponse.__init__`: empty bytes content, caller status
(default 307), and `headers["location"] = quote_plus(str(url),
safe=":/%#?&=@[]!$&'()*+,;")`. -/
def RedirectResponse.mk (url : String) (status_code : Nat := 307)
    (headers : Headers := []) : Response :=
  { content := .bytes [],
    status_code := status_code,
    headers := setHeaderCI headers "location" (asciiString (redirectLocation url)) }

theorem find?_filter_not (hs : Headers) (p : String × String → Bool) :
    (hs.filter (fun x => !(p x))).find? p = Option.none := by
  induction hs with
  | nil => rfl
  | cons h t ih =>
    by_cases hp : p h = true
    · simp [List.filter, hp, ih]
    · simp only [Bool.not_eq_true] at hp
      simp [List.filter, hp, List.find?, ih]

theorem getCI_setHeaderCI (hs : Headers) (key value : String) :
    getCI (setHeaderCI hs key value) key = some value := by
  unfold getCI setHeaderCI
  rw [List.find?_append, find?_filter_not]
  simp [List.find?]

/-! ## Claim C1: redirect Location encoding -/

/-- Claim C1 counterexample: redirecting to "/a b?x=1" yields the
Location value "/a+b?x=1". The space is turned into `+`, not
percent-encoded: the emitted bytes contain no `%` (byte 37) at all,
whereas the encoding the claim describes (percent-escaping every
character outside the allow-list) would produce "/a%20b?x=1". -/
theorem C1_counterexample :
    getCI (RedirectResponse.mk "/a b?x=1" 307 []).headers "location"
      = some "/a+b?x=1"
    ∧ redirectLocation "/a b?x=1" = utf8Encode "/a+b?x=1"
    ∧ (redirectLocation "/a b?x=1").contains 37 = false
    ∧ specLocationEncode "/a b?x=1" = utf8Encode "/a%20b?x=1" := by
  refine ⟨?_, by decide, by decide, by decide⟩
  have h := getCI_setHeaderCI [] "location" (asciiString (redirectLocation "/a b?x=1"))
  rw [show (RedirectResponse.mk "/a b?x=1" 307 []).headers
        = setHeaderCI [] "location" (asciiString (redirectLocation "/a b?x=1")) from rfl]
  rw [h]
  decide

/-- Claim C1 (amended): for every RedirectResponse the emitted Location
value is the target URL's UTF-8 bytes encoded byte-by-byte, with every
character outside the allow-list `:/%#?&=@[]!$&'()*+,;` and the
unreserved set (ASCII letters, digits, `_.-~`) percent-encoded - except
the space, which is emitted as `+`; in particular "/a b?x=1" yields
"/a+b?x=1", with `?` and `=` left intact. -/
theorem C1_redirect_location (url : String) (status : Nat) (hs : Headers) :
    getCI (RedirectResponse.mk url status hs).headers "location"
      = some (asciiString ((utf8Encode url).flatMap quotePlusByte))
    ∧ redirectLocation "/a b?x=1" = utf8Encode "/a+b?x=1" := by
  constructor
  · have h := getCI_setHeaderCI hs "location" (asciiString (redirectLocation url))
    rw [show (RedirectResponse.mk url status hs).headers
          = setHeaderCI hs "location" (asciiString (redirectLocation url)) from rfl]
    rw [h, redirectLocation, quote_plus_redirect_eq]
  · decide

/-! ## Claims C2 and C6: computed Content-Length and Content-Type -/

theorem countCI_append (a b : Headers) (k : String) :
    countCI (a ++ b) k = countCI a k + countCI b k := by
  simp [countCI, List.filter_append]

theorem countCI_zero_of_not_contains (hs : Headers) (k : String)
    (h : containsCI hs k = false) : countCI hs k = 0 := by
  induction hs with
  | nil => rfl
  | cons x t ih =>
    simp only [containsCI, List.any_cons, Bool.or_eq_false_iff] at h
    simp only [countCI, List.filter, h.1]
    exact ih h.2

theorem countCI_ctHeaderPart_cl (hs : Headers) (mt : Option String) (cs : String) :
    countCI (ctHeaderPart hs mt cs) "content-length" = 0 := by
  cases mt with
  | none => rfl
  | some ct =>
    by_cases hc : containsCI hs "Content-Type" = true
    · simp [ctHeaderPart, hc, countCI]
    · simp only [ctHeaderPart]
      rw [if_neg hc]
      simp [countCI, show (lowerString "content-type" == lowerString "content-length") = false by decide]

theorem countCI_clHeaderPart_ct (hs : Headers) (body : Option (List Nat)) :
    countCI (clHeaderPart hs body) "content-type" = 0 := by
  cases body with
  | none => rfl
  | some b =>
    by_cases hc : containsCI hs "Content-Length" = true
    · simp [clHeaderPart, hc, countCI]
    · simp only [clHeaderPart]
      rw [if_neg hc]
      simp [countCI, show (lowerString "content-length" == lowerString "content-type") = false by decide]

/-- Claim C2: when the rendered body is passed to `build_headers` and no
Content-Length header is pre-set (case-insensitively), the emitted list
holds exactly one content-length entry, whose value is the decimal byte
length of the rendered body; when a Content-Length is pre-set, no
second one is computed (the emitted content-length entries are exactly
the pre-set ones). -/
theorem C2_content_length (r : Response) :
    (containsCI r.headers "Content-Length" = false →
      ("content-length", toString (r.render r.content).length)
          ∈ r.build_headers (some (r.render r.content))
      ∧ countCI (r.build_headers (some (r.render r.content))) "content-length" = 1)
    ∧ (containsCI r.headers "Content-Length" = true →
      countCI (r.build_headers (some (r.render r.content))) "content-length"
        = countCI r.headers "content-length") := by
  constructor
  · intro h
    unfold Response.build_headers buildHeaders clHeaderPart
    rw [h]
    constructor
    · simp
    · rw [countCI_append, countCI_append, countCI_ctHeaderPart_cl]
      have hz : countCI r.headers "content-length" = 0 := by
        apply countCI_zero_of_not_contains
        simpa [containsCI, show lowerString "Content-Length" = lowerString "content-length" by decide]
          using h
      rw [hz]
      simp [countCI, show (lowerString "content-length" == lowerString "content-length") = true by decide]
  · intro h
    unfold Response.build_headers buildHeaders clHeaderPart
    rw [h]
    rw [countCI_append, countCI_append, countCI_ctHeaderPart_cl]
    simp [countCI]

/-- Claim C2 witness at a concrete response: no pre-set headers, body
`b"\x01\x02\x03"`. -/
theorem C2_content_length_witness :
    containsCI ({ content := Content.bytes [1, 2, 3] } : Response).headers
        "Content-Length" = false
    ∧ (("content-length",
        toString (({ content := Content.bytes [1, 2, 3] } : Response).render
          ({ content := Content.bytes [1, 2, 3] } : Response).content).length)
        ∈ ({ content := Content.bytes [1, 2, 3] } : Response).build_headers
            (some (({ content := Content.bytes [1, 2, 3] } : Response).render
              ({ content := Content.bytes [1, 2, 3] } : Response).content))
      ∧ countCI (({ content := Content.bytes [1, 2, 3] } : Response).build_headers
            (some (({ content := Content.bytes [1, 2, 3] } : Response).render
              ({ content := Content.bytes [1, 2, 3] } : Response).content)))
          "content-length" = 1) :=
  ⟨rfl, (C2_content_length _).1 rfl⟩

/-- Claim C6: with no pre-set Content-Type header and a media type
present, the emitted list holds exactly one content-type entry; its
value is the media type with `; charset=<charset>` appended when the
media type begins with `text/`, and the bare media type otherwise. -/
theorem C6_content_type (r : Response) (mt : String)
    (h1 : containsCI r.headers "Content-Type" = false)
    (h2 : r.media_type = some mt) (body : Option (List Nat)) :
    ("content-type",
      if mt.startsWith "text/" then mt ++ "; charset=" ++ r.charset else mt)
        ∈ r.build_headers body
    ∧ countCI (r.build_headers body) "content-type" = 1
    ∧ (mt.startsWith "text/" = true →
        ("content-type", mt ++ "; charset=" ++ r.charset) ∈ r.build_headers body)
    ∧ (mt.startsWith "text/" = false →
        ("content-type", mt) ∈ r.build_headers body) := by
  have hmem : ("content-type",
      if mt.startsWith "text/" then mt ++ "; charset=" ++ r.charset else mt)
        ∈ r.build_headers body := by
    unfold Response.build_headers buildHeaders ctHeaderPart
    rw [h2, h1]
    simp
  refine ⟨hmem, ?_, ?_, ?_⟩
  · unfold Response.build_headers buildHeaders ctHeaderPart
    rw [h2, h1]
    rw [countCI_append, countCI_append, countCI_clHeaderPart_ct]
    have hz : countCI r.headers "content-type" = 0 := by
      apply countCI_zero_of_not_contains
      simpa [containsCI, show lowerString "Content-Type" = lowerString "content-type" by decide]
        using h1
    rw [hz]
    simp [countCI, show (lowerString "content-type" == lowerString "content-type") = true by decide]
  · intro hsw
    rw [hsw] at hmem
    simpa using hmem
  · intro hsw
    rw [hsw] at hmem
    simpa using hmem

/-- Claim C6 witness at a text and a non-text media type, on a response
with no pre-set headers. -/
theorem C6_content_type_witness :
    containsCI ({ media_type := some "text/html" } : Response).headers
        "Content-Type" = false
    ∧ ({ media_type := some "text/html" } : Response).media_type = some "text/html"
    ∧ ("content-type",
        if "text/html".startsWith "text/"
        then "text/html" ++ "; charset=" ++ ({ media_type := some "text/html" } : Response).charset
        else "text/html")
          ∈ ({ media_type := some "text/html" } : Response).build_headers Option.none :=
  ⟨rfl, rfl,
    (C6_content_type ({ media_type := some "text/html" } : Response)
      "text/html" rfl rfl Option.none).1⟩

/-! ## Claim C8: cookies

`Response.set_cookie` builds a `http.cookies.SimpleCookie`, fills the
morsel's attributes, and appends `cookie.output(header="").strip()` as a
new `set-cookie` header entry. The value coder (`http.cookies` `_quote`)
and the date formatter used for an integer `expires` attribute
(`http.cookies` `_getdate`, which formats the current time plus the
given offset) are CPython internals; they are abstracted as the
function parameters `qv` and `gd`, so every statement below holds for
the real coder and formatter in particular. -/

/-- The arguments of one `Response.set_cookie` call (defaults as in the
source: empty value, no max-age, no expires, path "/", no domain, not
secure, not http-only). -/
structure CookieParams where
  key : String
  value : String := ""
  max_age : Option Int := Option.none
  expires : Option Int := Option.none
  path : Option String := some "/"
  domain : Option String := Option.none
  secure : Bool := false
  httponly : Bool := false

/-- `"; ".join(...)` (`http.cookies` `_semispacejoin`). -/
def joinSemi : List String → String
  | [] => ""
  | [x] => x
  | x :: xs => x ++ "; " ++ joinSemi xs

/-- The serialized `Set-Cookie` value: `key=<coded value>` followed by
the set attributes in `Morsel.OutputString`'s order (sorted attribute
names: Domain, expires, HttpOnly, Max-Age, Path, Secure), joined with
"; "; attributes whose stored value is the empty string are skipped. -/
def serializeCookie (qv : String → String) (gd : Int → String)
    (p : CookieParams) : String :=
  joinSemi
    ([p.key ++ "=" ++ qv p.value]
     ++ (match p.domain with
         | some d => if d = "" then [] else ["Domain=" ++ d]
         | Option.none => [])
     ++ (match p.expires with
         | some e => ["expires=" ++ gd e]
         | Option.none => [])
     ++ (if p.httponly then ["HttpOnly"] else [])
     ++ (match p.max_age with
         | some m => ["Max-Age=" ++ toString m]
         | Option.none => [])
     ++ (match p.path with
         | some pa => if pa = "" then [] else ["Path=" ++ pa]
         | Option.none => [])
     ++ (if p.secure then ["Secure"] else []))

/-- `Response.set_cookie`: append one new `set-cookie` entry holding the
serialized cookie; nothing else changes. -/
def Response.set_cookie (qv : String → String) (gd : Int → String)
    (r : Response) (p : CookieParams) : Response :=
  { r with headers := appendHeader r.headers "set-cookie" (serializeCookie qv gd p) }

/-- `Response.delete_cookie`:
`self.set_cookie(key, expires=0, max_age=0, path=path, domain=domain)`. -/
def Response.delete_cookie (qv : String → String) (gd : Int → String)
    (r : Response) (key : String) (path : Option String := some "/")
    (domain : Option String := Option.none) : Response :=
  Response.set_cookie qv gd r
    { key := key, max_age := some 0, expires := some 0,
      path := path, domain := domain }

/-- Claim C8: for any value coder and date formatter, (1) each
`set_cookie` call appends exactly one new `set-cookie` entry after the
unchanged existing headers; (2) two successive calls yield exactly two
new entries in call order, after the unchanged existing headers;
(3) `delete_cookie` is exactly `set_cookie` with empty value,
`max_age=0` and `expires=0` (and the caller's path and domain); (4) the
serialized deletion cookie for the default path carries `Max-Age=0` and
an `expires` attribute formatted from the integer 0. -/
theorem C8_set_cookie (qv : String → String) (gd : Int → String)
    (r : Response) (p p1 p2 : CookieParams) (key : String)
    (path domain : Option String) :
    (Response.set_cookie qv gd r p).headers
        = r.headers ++ [("set-cookie", serializeCookie qv gd p)]
    ∧ (Response.set_cookie qv gd (Response.set_cookie qv gd r p1) p2).headers
        = r.headers ++ [("set-cookie", serializeCookie qv gd p1),
                        ("set-cookie", serializeCookie qv gd p2)]
    ∧ Response.delete_cookie qv gd r key path domain
        = Response.set_cookie qv gd r
            { key := key, value := "", max_age := some 0, expires := some 0,
              path := path, domain := domain, secure := false, httponly := false }
    ∧ serializeCookie qv gd
        { key := key, value := "", max_age := some 0, expires := some 0 }
        = joinSemi [key ++ "=" ++ qv "", "expires=" ++ gd 0, "Max-Age=0", "Path=/"] := by
  refine ⟨rfl, ?_, ?_⟩
  · simp [Response.set_cookie, appendHeader]
  · refine ⟨rfl, ?_⟩
    have hM : ("Max-Age=" ++ toString (0 : Int)) = "Max-Age=0" := by decide
    simp [serializeCookie, hM]

/-! ## Claim C3: `StreamingResponse` -/

/-- One chunk produced by the streaming body iterator: already `bytes`,
or `str` still to be encoded. -/
inductive Chunk
  | bytes (b : List Nat)
  | text (s : String)
deriving DecidableEq

/-- `if not isinstance(chunk, bytes): chunk = chunk.encode(self.charset)`
(the charset is the class constant `"utf-8"`). -/
def Chunk.toBytes : Chunk → List Nat
  | .bytes b => b
  | .text s => utf8Encode s

/-- State of a `StreamingResponse` for a finite producer: the chunk
sequence in production order plus status, headers and media type. -/
structure StreamingResponse where
  chunks : List Chunk
  status_code : Nat := 200
  headers : Headers := []
  media_type : Option String := Option.none

/-- The body-event part of `StreamingResponse.__call__`: one body event
marked `more_body=True` per produced chunk (encoded to bytes), then a
final empty body event marked `more_body=False`. -/
def streamBody : List Chunk → List Event
  | [] => [Event.body [] false]
  | c :: cs => Event.body c.toBytes true :: streamBody cs

/-- `StreamingResponse.__call__`: a start event with the built headers
(no body is passed, so no Content-Length is computed), then the body
events of the chunk sequence. -/
def StreamingResponse.call (r : StreamingResponse) : List Event :=
  Event.start r.status_code
      (buildHeaders r.headers r.media_type "utf-8" Option.none)
    :: streamBody r.chunks

theorem streamBody_eq (cs : List Chunk) :
    streamBody cs
      = cs.map (fun c => Event.body c.toBytes true) ++ [Event.body [] false] := by
  induction cs with
  | nil => rfl
  | cons c t ih => simp [streamBody, ih]

/-- Claim C3: a finite producer of n chunks yields exactly one start
event followed by exactly n+1 body events - one per chunk, in
production order, each encoded to bytes and marked `more_body=true`,
then one final empty body event marked `more_body=false`; the producer
`[b"a", b"b", b"c"]` yields exactly four body events. -/
theorem C3_streaming_events (r : StreamingResponse) :
    StreamingResponse.call r
      = Event.start r.status_code
            (buildHeaders r.headers r.media_type "utf-8" Option.none)
          :: (r.chunks.map (fun c => Event.body c.toBytes true)
              ++ [Event.body [] false])
    ∧ (streamBody r.chunks).length = r.chunks.length + 1
    ∧ streamBody [Chunk.bytes [97], Chunk.bytes [98], Chunk.bytes [99]]
        = [Event.body [97] true, Event.body [98] true, Event.body [99] true,
           Event.body [] false] := by
  refine ⟨?_, ?_, rfl⟩
  · unfold StreamingResponse.call
    rw [streamBody_eq]
  · rw [streamBody_eq]
    simp

/-! ## Claims C5 and C9: `JSONResponse`

`JSONResponse.render` calls `json.dumps(self.content, ensure_ascii=False,
allow_nan=False, indent=None, separators=(",", ":"))`. The serializer is
embedded below over a `Json` value tree; a finite float carries its
Python `repr` string, and the out-of-range floats NaN/±Infinity are
explicit constructors. -/

/-- A Python value serializable by `json.dumps` (the content of a
`JSONResponse`): `None`, bools, ints, finite floats (carrying their
`repr` string), the out-of-range floats NaN and ±Infinity, strings,
lists and dicts. -/
inductive Json
  | null
  | boolean (b : Bool)
  | int (n : Int)
  | float (r : String)
  | nan
  | infinity (neg : Bool)
  | str (s : String)
  | arr (xs : List Json)
  | obj (fields : List (String × Json))

/-- `ValueError("Out of range float values are not JSON compliant")`,
the spec's SerializationError class. -/
structure SerializationError where
  msg : String
deriving DecidableEq

def nanError : SerializationError :=
  ⟨"Out of range float values are not JSON compliant"⟩

/-- Lowercase hexadecimal digit (`'\\u%04x'` formatting). -/
def hexLower (n : Nat) : Char :=
  Char.ofNat (if n < 10 then 48 + n else 87 + n)

/-- One character of a JSON string under `ensure_ascii=False`: only
backslash, double quote and control characters below 0x20 are escaped;
everything else (including non-ASCII) passes through verbatim. -/
def escapeChar (c : Char) : String :=
  if c = '\\' then "\\\\"
  else if c = '"' then "\\\""
  else if c = Char.ofNat 8 then "\\b"
  else if c = Char.ofNat 9 then "\\t"
  else if c = Char.ofNat 10 then "\\n"
  else if c = Char.ofNat 12 then "\\f"
  else if c = Char.ofNat 13 then "\\r"
  else if c.toNat < 32 then
    "\\u00" ++ String.mk [hexLower (c.toNat / 16), hexLower (c.toNat % 16)]
  else String.singleton c

/-- A JSON string literal: quoted, with `escapeChar` applied. -/
def jsonQuote (s : String) : String :=
  "\"" ++ String.join (s.data.map escapeChar) ++ "\""

/-- `",".join(...)`: the configured item separator, with no surrounding
whitespace. -/
def joinComma : List String → String
  | [] => ""
  | [x] => x
  | x :: xs => x ++ "," ++ joinComma xs

mutual

/-- `json.dumps` with `ensure_ascii=False, allow_nan=False, indent=None,
separators=(",", ":")`: compact rendering; NaN/Infinity raise. -/
def dumps : Json → Except SerializationError String
  | .null => .ok "null"
  | .boolean true => .ok "true"
  | .boolean false => .ok "false"
  | .int n => .ok (toString n)
  | .float r => .ok r
  | .nan => .error nanError
  | .infinity _ => .error nanError
  | .str s => .ok (jsonQuote s)
  | .arr xs =>
    match dumpsList xs with
    | .error e => .error e
    | .ok ss => .ok ("[" ++ joinComma ss ++ "]")
  | .obj fs =>
    match dumpsFields fs with
    | .error e => .error e
    | .ok ss => .ok ("\x7b" ++ joinComma ss ++ "\x7d")

/-- Renders the elements of a JSON array, stopping at the first error. -/
def dumpsList : List Json → Except SerializationError (List String)
  | [] => .ok []
  | x :: xs =>
    match dumps x with
    | .error e => .error e
    | .ok s =>
      match dumpsList xs with
      | .error e => .error e
      | .ok ss => .ok (s :: ss)

/-- Renders `<quoted key>:<value>` for each object field (the `:`
key separator, no surrounding whitespace), stopping at the first
error. -/
def dumpsFields : List (String × Json) → Except SerializationError (List String)
  | [] => .ok []
  | (k, v) :: fs =>
    match dumps v with
    | .error e => .error e
    | .ok s =>
      match dumpsFields fs with
      | .error e => .error e
      | .ok ss => .ok ((jsonQuote k ++ ":" ++ s) :: ss)

end

mutual

/-- Whether a value holds a NaN or (signed) Infinity anywhere. -/
def containsBadFloat : Json → Bool
  | .null => false
  | .boolean _ => false
  | .int _ => false
  | .float _ => false
  | .nan => true
  | .infinity _ => true
  | .str _ => false
  | .arr xs => listHasBadFloat xs
  | .obj fs => fieldsHaveBadFloat fs

def listHasBadFloat : List Json → Bool
  | [] => false
  | x :: xs => containsBadFloat x || listHasBadFloat xs

def fieldsHaveBadFloat : List (String × Json) → Bool
  | [] => false
  | (_, v) :: fs => containsBadFloat v || fieldsHaveBadFloat fs

end

mutual

theorem dumps_bad : ∀ v : Json, containsBadFloat v = true →
    dumps v = Except.error nanError
  | Json.nan, _ => rfl
  | Json.infinity _, _ => rfl
  | Json.null, h => nomatch h
  | Json.boolean _, h => nomatch h
  | Json.int _, h => nomatch h
  | Json.float _, h => nomatch h
  | Json.str _, h => nomatch h
  | Json.arr xs, h => by
    have hl := dumpsList_bad xs h
    simp [dumps, hl]
  | Json.obj fs, h => by
    have hl := dumpsFields_bad fs h
    simp [dumps, hl]

theorem dumpsList_bad : ∀ xs : List Json, listHasBadFloat xs = true →
    dumpsList xs = Except.error nanError
  | [], h => nomatch h
  | x :: xs, h => by
    by_cases hx : containsBadFloat x = true
    · have hd := dumps_bad x hx
      simp [dumpsList, hd]
    · have hx' : containsBadFloat x = false := by
        revert hx; cases containsBadFloat x <;> simp
      have hxs : listHasBadFloat xs = true := by
        have h' : (containsBadFloat x || listHasBadFloat xs) = true := h
        simpa [hx'] using h'
      obtain ⟨s, hs⟩ := dumps_ok x hx'
      have ht := dumpsList_bad xs hxs
      simp [dumpsList, hs, ht]

theorem dumpsFields_bad : ∀ fs : List (String × Json),
    fieldsHaveBadFloat fs = true → dumpsFields fs = Except.error nanError
  | [], h => nomatch h
  | (k, v) :: fs, h => by
    by_cases hv : containsBadFloat v = true
    · have hd := dumps_bad v hv
      simp [dumpsFields, hd]
    · have hv' : containsBadFloat v = false := by
        revert hv; cases containsBadFloat v <;> simp
      have hfs : fieldsHaveBadFloat fs = true := by
        have h' : (containsBadFloat v || fieldsHaveBadFloat fs) = true := h
        simpa [hv'] using h'
      obtain ⟨s, hs⟩ := dumps_ok v hv'
      have ht := dumpsFields_bad fs hfs
      simp [dumpsFields, hs, ht]

theorem dumps_ok : ∀ v : Json, containsBadFloat v = false →
    ∃ s, dumps v = Except.ok s
  | Json.null, _ => ⟨_, rfl⟩
  | Json.boolean true, _ => ⟨_, rfl⟩
  | Json.boolean false, _ => ⟨_, rfl⟩
  | Json.int _, _ => ⟨_, rfl⟩
  | Json.float r, _ => ⟨r, rfl⟩
  | Json.str _, _ => ⟨_, rfl⟩
  | Json.nan, h => nomatch h
  | Json.infinity _, h => nomatch h
  | Json.arr xs, h => by
    obtain ⟨ss, hss⟩ := dumpsList_ok xs h
    exact ⟨"[" ++ joinComma ss ++ "]", by simp [dumps, hss]⟩
  | Json.obj fs, h => by
    obtain ⟨ss, hss⟩ := dumpsFields_ok fs h
    exact ⟨"\x7b" ++ joinComma ss ++ "\x7d", by simp [dumps, hss]⟩

theorem dumpsList_ok : ∀ xs : List Json, listHasBadFloat xs = false →
    ∃ ss, dumpsList xs = Except.ok ss
  | [], _ => ⟨[], rfl⟩
  | x :: xs, h => by
    have h' : (containsBadFloat x || listHasBadFloat xs) = false := h
    have hx : containsBadFloat x = false := by
      revert h'; cases containsBadFloat x <;> simp
    have hxs : listHasBadFloat xs = false := by
      revert h'; cases listHasBadFloat xs <;> simp
    obtain ⟨s, hs⟩ := dumps_ok x hx
    obtain ⟨ss, hss⟩ := dumpsList_ok xs hxs
    exact ⟨s :: ss, by simp [dumpsList, hs, hss]⟩

theorem dumpsFields_ok : ∀ fs : List (String × Json),
    fieldsHaveBadFloat fs = false → ∃ ss, dumpsFields fs = Except.ok ss
  | [], _ => ⟨[], rfl⟩
  | (k, v) :: fs, h => by
    have h' : (containsBadFloat v || fieldsHaveBadFloat fs) = false := h
    have hv : containsBadFloat v = false := by
      revert h'; cases containsBadFloat v <;> simp
    have hfs : fieldsHaveBadFloat fs = false := by
      revert h'; cases fieldsHaveBadFloat fs <;> simp
    obtain ⟨s, hs⟩ := dumps_ok v hv
    obtain ⟨ss, hss⟩ := dumpsFields_ok fs hfs
    exact ⟨(jsonQuote k ++ ":" ++ s) :: ss, by simp [dumpsFields, hs, hss]⟩

end

/-- Claim C5: rendering fails with the SerializationError exactly on
content with a NaN/Infinity anywhere - in particular on
`{"x": float("nan")}` - and succeeds on content free of such values;
the concrete compact rendering shows `,` and `:` separators with no
surrounding spaces and non-ASCII characters passed through unescaped. -/
theorem C5_json_nan_and_compact (v : Json) :
    (containsBadFloat v = true → dumps v = Except.error nanError)
    ∧ (containsBadFloat v = false → ∃ s, dumps v = Except.ok s)
    ∧ dumps (Json.obj [("x", Json.nan)]) = Except.error nanError
    ∧ dumps (Json.obj [("α", Json.str "béta"), ("n", Json.int 1),
                       ("l", Json.arr [Json.int 1, Json.int 2])])
        = Except.ok "\x7b\"α\":\"béta\",\"n\":1,\"l\":[1,2]\x7d" := by
  refine ⟨dumps_bad v, dumps_ok v, rfl, ?_⟩
  rfl

/-- Claim C5 witness: the spec's own example content. -/
theorem C5_json_nan_and_compact_witness :
    containsBadFloat (Json.obj [("x", Json.nan)]) = true
    ∧ dumps (Json.obj [("x", Json.nan)]) = Except.error nanError :=
  ⟨rfl, (C5_json_nan_and_compact (Json.obj [("x", Json.nan)])).1 rfl⟩

/-- State of a `JSONResponse`: the stored content (`Json.null` models a
response constructed with `content=None`). -/
structure JSONResponse where
  content : Json

/-- `JSONResponse.render`: serializes `self.content` - the `content`
argument of the method is not used (mirroring the source's signature,
which takes `content` but dumps `self.content`); the result is encoded
to UTF-8 bytes. -/
def JSONResponse.render (r : JSONResponse) (_content : Json) :
    Except SerializationError (List Nat) :=
  (dumps r.content).map utf8Encode

/-- Claim C9: `JSONResponse.render` ignores its argument and always
serializes the stored content - `r.render x = r.render y` for all `x`,
`y`, both equal to the JSON serialization of `r.content`; a
JSONResponse with content `None` renders the 4-byte body "null",
whereas the base `Response.render` yields the empty body for `None`. -/
theorem C9_json_render_ignores_arg (r : JSONResponse) (x y : Json)
    (b : Response) :
    JSONResponse.render r x = JSONResponse.render r y
    ∧ JSONResponse.render r x = (dumps r.content).map utf8Encode
    ∧ JSONResponse.render ⟨Json.null⟩ x = Except.ok (utf8Encode "null")
    ∧ utf8Encode "null" = [110, 117, 108, 108]
    ∧ Response.render b Content.none = [] :=
  ⟨rfl, rfl, rfl, by decide, rfl⟩

/-! ## Claims C4, C7, C10: `FileResponse`

The ETag hash (`hashlib.md5` of `str(st_mtime) + "-" + str(st_size)`)
and the Last-Modified formatter (`email.utils.formatdate(st_mtime,
usegmt=True)`) are CPython library functions abstracted as the
parameters `etagFn` and `dateFn`; every statement below is proved for
any choice of them. The filesystem is a partial map from paths to
nodes; `aio_stat` raising `FileNotFoundError` corresponds to the path
being unmapped. -/

/-- The fields of an `os.stat_result` used here: `st_size` and
`st_mtime`. -/
structure StatResult where
  size : Nat
  mtime : Int
deriving DecidableEq

/-- What a path names on the filesystem: a regular file with contents
(and mtime), or something that exists but is not a regular file
(`stat.S_ISREG` false). -/
inductive FSNode
  | regular (data : List Nat) (mtime : Int)
  | notRegular (st : StatResult)
deriving DecidableEq

/-- The stat result of a node (`st_size` of a regular file is its
content length). -/
def FSNode.statOf : FSNode → StatResult
  | .regular data mtime => ⟨data.length, mtime⟩
  | .notRegular st => st

/-- The failures of `FileResponse.__call__`: the two `RuntimeError`s
raised by the deferred-stat validation (the spec's NotFound and
InvalidTarget classes), and the lower-level I/O failure of
`aiofiles.open` when a precomputed stat was supplied but the path no
longer names a regular file. -/
inductive FileErr
  | notFound (path : String)
  | notAFile (path : String)
  | ioError (path : String)
deriving DecidableEq

/-- `method.upper() == "HEAD"` on one character (ASCII upper-casing). -/
def upperChar (c : Char) : Char :=
  if 97 <= c.toNat && c.toNat <= 122 then Char.ofNat (c.toNat - 32) else c

/-- ASCII upper-casing of a string (`method.upper()`). -/
def upperString (s : String) : String :=
  String.mk (s.data.map upperChar)

/-- `self.send_header_only = method is not None and method.upper() ==
"HEAD"`. -/
def isHeadMethod : Option String → Bool
  | some m => upperString m == "HEAD"
  | Option.none => false

/-- State of a `FileResponse` object after `__init__`. -/
structure FileResponse where
  path : String
  status_code : Nat := 200
  headers : Headers := []
  media_type : String
  send_header_only : Bool := false
  stat_result : Option StatResult := Option.none

/-- `FileResponse.set_stat_headers`: set-if-absent `content-length`
(decimal file size), `last-modified` (formatted mtime) and `etag`
(hash of mtime and size), in that order. -/
def set_stat_headers (etagFn : StatResult → String) (dateFn : Int → String)
    (st : StatResult) (hs : Headers) : Headers :=
  setdefaultCI
    (setdefaultCI
      (setdefaultCI hs "content-length" (toString st.size))
      "last-modified" (dateFn st.mtime))
    "etag" (etagFn st)

/-- `FileResponse.__init__` (with the media type already resolved; the
`mimetypes.guess_type` fallback chain is orthogonal to the claims):
optional `content-disposition` set-if-absent from the download
filename, then stat headers from a precomputed `stat_result` if one
was supplied; `send_header_only` iff the method upper-cases to
"HEAD". -/
def FileResponse.init (etagFn : StatResult → String) (dateFn : Int → String)
    (path : String) (status_code : Nat) (headers : Headers)
    (media_type : String) (filename : Option String)
    (stat_result : Option StatResult) (method : Option String) : FileResponse :=
  let hs :=
    match filename with
    | some f =>
      setdefaultCI headers "content-disposition"
        ("attachment; filename=\"" ++ f ++ "\"")
    | Option.none => headers
  let hs :=
    match stat_result with
    | some st => set_stat_headers etagFn dateFn st hs
    | Option.none => hs
  { path := path, status_code := status_code, headers := hs,
    media_type := media_type, send_header_only := isHeadMethod method,
    stat_result := stat_result }

/-- `FileResponse.chunk_size`. -/
def chunk_size : Nat := 4096

/-- The read-send loop of `FileResponse.__call__`: read up to
`chunk_size` bytes, send them with `more_body = (len(chunk) ==
chunk_size)`, repeat while `more_body`. Returns the emitted body events
and the number of reads performed (one per iteration). -/
def fileLoop (data : List Nat) : List Event × Nat :=
  if (data.take chunk_size).length = chunk_size then
    let rest := fileLoop (data.drop chunk_size)
    (Event.body (data.take chunk_size) true :: rest.1, rest.2 + 1)
  else
    ([Event.body (data.take chunk_size) false], 1)
termination_by data.length
decreasing_by
  simp only [List.length_take, List.length_drop, chunk_size] at *
  omega

/-- The file's contents split into successive `chunk_size` groups (the
last group shorter when the size is not an exact multiple). -/
def chunksOf (data : List Nat) : List (List Nat) :=
  if data.isEmpty then []
  else data.take chunk_size :: chunksOf (data.drop chunk_size)
termination_by data.length
decreasing_by
  rename_i h
  have hne : data ≠ [] := by simpa using h
  have hz : data.length ≠ 0 := fun hz => hne (List.length_eq_zero.mp hz)
  simp only [List.length_drop, chunk_size]
  omega

/-- The transmission part of `FileResponse.__call__` after validation:
the start event with the built headers (no body passed, media type
always present); then, for HEAD, a single default body event; otherwise
open the path and run the read-send loop - if the path no longer names
a regular file the open fails after the start event was already sent. -/
def fileTransmit (fs : String → Option FSNode) (r : FileResponse) :
    List Event × Option FileErr :=
  let start := Event.start r.status_code
      (buildHeaders r.headers (some r.media_type) "utf-8" Option.none)
  if r.send_header_only then
    ([start, Event.body [] false], Option.none)
  else
    match fs r.path with
    | some (FSNode.regular data _) => (start :: (fileLoop data).1, Option.none)
    | _ => ([start], some (FileErr.ioError r.path))

/-- `FileResponse.__call__`: with a deferred stat, the path is stat'ed -
an unmapped path raises the NotFound error and a non-regular node the
InvalidTarget error, both before any event is emitted (the stat headers
are set before the regular-file check, as in the source); with a
precomputed stat, transmission starts immediately with no validation. -/
def FileResponse.call (etagFn : StatResult → String) (dateFn : Int → String)
    (fs : String → Option FSNode) (r : FileResponse) :
    List Event × Option FileErr :=
  match r.stat_result with
  | Option.none =>
    match fs r.path with
    | Option.none => ([], some (FileErr.notFound r.path))
    | some (FSNode.notRegular _) => ([], some (FileErr.notAFile r.path))
    | some (FSNode.regular data mtime) =>
      fileTransmit fs
        { r with headers :=
            set_stat_headers etagFn dateFn ⟨data.length, mtime⟩ r.headers }
  | some _ => fileTransmit fs r

theorem fileLoop_exact : ∀ (k : Nat) (data : List Nat),
    data.length = k * chunk_size →
    fileLoop data
      = ((chunksOf data).map (fun c => Event.body c true)
          ++ [Event.body [] false], k + 1)
    ∧ (chunksOf data).length = k
  | 0, data, h => by
    have hd : data = [] := List.length_eq_zero.mp (by simpa using h)
    subst hd
    constructor
    · rw [fileLoop]
      simp [chunk_size, chunksOf]
    · simp [chunksOf]
  | k + 1, data, h => by
    have hlen : chunk_size ≤ data.length := by
      rw [h]
      exact Nat.le_mul_of_pos_left chunk_size (Nat.succ_pos k)
    have htake : (data.take chunk_size).length = chunk_size := by
      simp [List.length_take]
      omega
    have hdrop : (data.drop chunk_size).length = k * chunk_size := by
      simp only [List.length_drop, h, Nat.succ_mul]
      omega
    obtain ⟨ih1, ih2⟩ := fileLoop_exact k (data.drop chunk_size) hdrop
    have hne : data ≠ [] := by
      intro he
      rw [he] at hlen
      simp [chunk_size] at hlen
    have hchunks : chunksOf data
        = data.take chunk_size :: chunksOf (data.drop chunk_size) := by
      rw [chunksOf]
      simp [hne]
    constructor
    · rw [fileLoop, if_pos htake]
      simp only [ih1, hchunks, List.map_cons, List.cons_append]
    · rw [hchunks]
      simp [ih2]

theorem chunksOf_flatten (data : List Nat) : (chunksOf data).flatten = data := by
  rw [chunksOf]
  split
  · rename_i he
    simp [List.isEmpty_iff.mp he]
  · rw [List.flatten_cons, chunksOf_flatten (data.drop chunk_size)]
    exact List.take_append_drop chunk_size data
termination_by data.length
decreasing_by
  rename_i h
  have hne : data ≠ [] := by simpa using h
  have hz : data.length ≠ 0 := fun hz => hne (List.length_eq_zero.mp hz)
  simp only [List.length_drop, chunk_size]
  omega

/-- Claim C4: for a file whose size is an exact positive multiple k of
the 4096-byte chunk size, non-HEAD emission sends the start event, then
k body events marked `more_body=true` carrying the file's successive
chunks in order, then a final zero-length body event marked
`more_body=false` - and the loop performs k+1 reads (the last returning
zero bytes). -/
theorem C4_file_exact_multiple (etagFn : StatResult → String)
    (dateFn : Int → String) (fs : String → Option FSNode)
    (r : FileResponse) (data : List Nat) (mtime : Int) (k : Nat)
    (hhead : r.send_header_only = false)
    (hfs : fs r.path = some (FSNode.regular data mtime))
    (_hk : 0 < k) (hlen : data.length = k * chunk_size) :
    (∃ hdrs, FileResponse.call etagFn dateFn fs r
        = (Event.start r.status_code hdrs
            :: ((chunksOf data).map (fun c => Event.body c true)
                ++ [Event.body [] false]), Option.none))
    ∧ (fileLoop data).2 = k + 1
    ∧ (chunksOf data).length = k
    ∧ (chunksOf data).flatten = data := by
  obtain ⟨h1, h2⟩ := fileLoop_exact k data hlen
  refine ⟨?_, by rw [h1], h2, chunksOf_flatten data⟩
  have htrans : ∀ r' : FileResponse, r'.path = r.path →
      r'.send_header_only = false →
      fileTransmit fs r'
        = (Event.start r'.status_code
            (buildHeaders r'.headers (some r'.media_type) "utf-8" Option.none)
            :: ((chunksOf data).map (fun c => Event.body c true)
                ++ [Event.body [] false]), Option.none) := by
    intro r' hp hh
    unfold fileTransmit
    rw [hh, hp, hfs]
    simp [h1]
  cases hstat : r.stat_result with
  | none =>
    refine ⟨buildHeaders
        (set_stat_headers etagFn dateFn ⟨data.length, mtime⟩ r.headers)
        (some r.media_type) "utf-8" Option.none, ?_⟩
    unfold FileResponse.call
    rw [hstat, hfs]
    exact htrans _ rfl hhead
  | some st =>
    refine ⟨buildHeaders r.headers (some r.media_type) "utf-8" Option.none, ?_⟩
    unfold FileResponse.call
    rw [hstat]
    exact htrans r rfl hhead

/-- Claim C4 witness: a one-chunk file of 4096 zero bytes, with a
precomputed stat. -/
theorem C4_file_exact_multiple_witness :
    ({ path := "f", media_type := "text/plain",
       stat_result := some ⟨4096, 0⟩ } : FileResponse).send_header_only = false
    ∧ (fun _ : String => some (FSNode.regular (List.replicate 4096 0) 0))
        ({ path := "f", media_type := "text/plain",
           stat_result := some ⟨4096, 0⟩ } : FileResponse).path
        = some (FSNode.regular (List.replicate 4096 0) 0)
    ∧ 0 < 1
    ∧ (List.replicate 4096 (0 : Nat)).length = 1 * chunk_size
    ∧ (fileLoop (List.replicate 4096 0)).2 = 1 + 1 := by
  refine ⟨rfl, rfl, Nat.one_pos,
    by rw [List.length_replicate, chunk_size, Nat.one_mul], ?_⟩
  exact (C4_file_exact_multiple (fun _ => "") (fun _ => "")
    (fun _ => some (FSNode.regular (List.replicate 4096 0) 0))
    { path := "f", media_type := "text/plain", stat_result := some ⟨4096, 0⟩ }
    (List.replicate 4096 0) 0 1 rfl rfl Nat.one_pos
    (by rw [List.length_replicate, chunk_size, Nat.one_mul])).2.1

/-- Claim C7: with a deferred stat (none precomputed), an unmapped path
fails with the NotFound error and a path naming a non-regular node
fails with the InvalidTarget error - in both cases no protocol event
(neither start nor body) is emitted. -/
theorem C7_file_validation (etagFn : StatResult → String)
    (dateFn : Int → String) (fs : String → Option FSNode)
    (r : FileResponse) (hstat : r.stat_result = Option.none) :
    (fs r.path = Option.none →
      FileResponse.call etagFn dateFn fs r
        = ([], some (FileErr.notFound r.path)))
    ∧ (∀ st, fs r.path = some (FSNode.notRegular st) →
      FileResponse.call etagFn dateFn fs r
        = ([], some (FileErr.notAFile r.path))) := by
  constructor
  · intro h
    unfold FileResponse.call
    rw [hstat, h]
  · intro st h
    unfold FileResponse.call
    rw [hstat, h]

/-- Claim C7 witness: a deferred-stat response over the empty
filesystem. -/
theorem C7_file_validation_witness :
    ({ path := "f", media_type := "text/plain" } : FileResponse).stat_result
        = Option.none
    ∧ (fun _ : String => (Option.none : Option FSNode))
        ({ path := "f", media_type := "text/plain" } : FileResponse).path
        = Option.none
    ∧ FileResponse.call (fun _ => "") (fun _ => "")
        (fun _ => (Option.none : Option FSNode))
        ({ path := "f", media_type := "text/plain" } : FileResponse)
        = ([], some (FileErr.notFound "f")) :=
  ⟨rfl, rfl,
    (C7_file_validation (fun _ => "") (fun _ => "")
      (fun _ => (Option.none : Option FSNode))
      ({ path := "f", media_type := "text/plain" } : FileResponse) rfl).1 rfl⟩

/-- Claim C10: with a precomputed stat, emission performs no path
validation - the NotFound/InvalidTarget error branches are unreachable
and the start event (with headers built from the response's state,
whose stat headers were derived from the supplied stat at construction)
is emitted whatever the path currently names, for any filesystem. -/
theorem C10_precomputed_stat_no_validation (etagFn : StatResult → String)
    (dateFn : Int → String) (fs : String → Option FSNode)
    (r : FileResponse) (st : StatResult)
    (hstat : r.stat_result = some st) :
    ∃ rest err,
      FileResponse.call etagFn dateFn fs r
        = (Event.start r.status_code
            (buildHeaders r.headers (some r.media_type) "utf-8" Option.none)
            :: rest, err)
      ∧ (∀ p, err ≠ some (FileErr.notFound p))
      ∧ (∀ p, err ≠ some (FileErr.notAFile p)) := by
  have hcall : FileResponse.call etagFn dateFn fs r = fileTransmit fs r := by
    unfold FileResponse.call
    rw [hstat]
  unfold fileTransmit at hcall
  by_cases hh : r.send_header_only = true
  · rw [hh] at hcall
    exact ⟨[Event.body [] false], Option.none, by simpa using hcall,
      fun p => by simp, fun p => by simp⟩
  · have hh' : r.send_header_only = false := by
      revert hh; cases r.send_header_only <;> simp
    rw [hh'] at hcall
    simp only [Bool.false_eq_true, if_false] at hcall
    cases hfs : fs r.path with
    | none =>
      rw [hfs] at hcall
      exact ⟨[], some (FileErr.ioError r.path), by simpa using hcall,
        fun p => by simp, fun p => by simp⟩
    | some node =>
      cases node with
      | regular data mtime =>
        rw [hfs] at hcall
        exact ⟨(fileLoop data).1, Option.none, by simpa using hcall,
          fun p => by simp, fun p => by simp⟩
      | notRegular st2 =>
        rw [hfs] at hcall
        exact ⟨[], some (FileErr.ioError r.path), by simpa using hcall,
          fun p => by simp, fun p => by simp⟩

/-- Claim C10 witness: a precomputed-stat response over the empty
filesystem (the path names nothing at all, yet the start event is
emitted and neither validation error can occur). -/
theorem C10_precomputed_stat_no_validation_witness :
    ({ path := "f", media_type := "text/plain",
       stat_result := some ⟨0, 0⟩ } : FileResponse).stat_result = some ⟨0, 0⟩
    ∧ ∃ rest err,
      FileResponse.call (fun _ => "") (fun _ => "")
          (fun _ => (Option.none : Option FSNode))
          ({ path := "f", media_type := "text/plain",
             stat_result := some ⟨0, 0⟩ } : FileResponse)
        = (Event.start
            ({ path := "f", media_type := "text/plain",
               stat_result := some ⟨0, 0⟩ } : FileResponse).status_code
            (buildHeaders
              ({ path := "f", media_type := "text/plain",
                 stat_result := some ⟨0, 0⟩ } : FileResponse).headers
              (some ({ path := "f", media_type := "text/plain",
                       stat_result := some ⟨0, 0⟩ } : FileResponse).media_type)
              "utf-8" Option.none)
            :: rest, err)
      ∧ (∀ p, err ≠ some (FileErr.notFound p))
      ∧ (∀ p, err ≠ some (FileErr.notAFile p)) :=
  ⟨rfl,
    C10_precomputed_stat_no_validation (fun _ => "") (fun _ => "")
      (fun _ => (Option.none : Option FSNode))
      ({ path := "f", media_type := "text/plain",
         stat_result := some ⟨0, 0⟩ } : FileResponse) ⟨0, 0⟩ rfl⟩
